import Mathlib

/-!
Verification development for the Kronos daily-activity reporting script
(`main.py`). Python strings are embedded as `List Char`; timestamps are
parsed into a `PyDateTime` record and measured in integer microseconds,
mirroring CPython's `datetime` (which stores whole microseconds).
Durations are rationals: every float the script manipulates is a quotient
of integers at this granularity, so `ℚ` is the exact shallow embedding of
the arithmetic the claims are about.
-/

set_option autoImplicit false

namespace Kronos

/-- A Python `str`, embedded as its character sequence. -/
abbrev Str := List Char

/-- Python `s.split(sep)` for a one-character separator. -/
def splitChar (sep : Char) : Str → List Str
  | [] => [[]]
  | c :: cs =>
    match splitChar sep cs with
    | [] => [[]]
    | h :: t => if c = sep then [] :: h :: t else (c :: h) :: t

/-- `pad_isoformat` from `main.py`: split on `'.'`; when the split has
exactly two parts, right-pad the fractional part with `'0'` until it has
at least three characters, and rejoin with `'.'`; otherwise return the
string unchanged. -/
def pad_isoformat (s : Str) : Str :=
  match splitChar '.' s with
  | [a, b] => a ++ '.' :: (b ++ List.replicate (3 - b.length) '0')
  | _ => s

/-- ASCII digit test, as used by the timestamp and date parsers. -/
def isDigitChar (c : Char) : Bool := '0' ≤ c && c ≤ '9'

/-- Numeric value of an ASCII digit character. -/
def digitVal (c : Char) : ℕ := c.toNat - 48

/-- Value of a two-digit field. -/
def twoDigits (a b : Char) : ℕ := 10 * digitVal a + digitVal b

/-- Gregorian leap-year test (as in CPython's `datetime` module). -/
def isLeapYear (y : ℕ) : Bool := y % 4 == 0 && (y % 100 != 0 || y % 400 == 0)

/-- Days in a month of a given year (as in CPython's `datetime` module). -/
def daysInMonth (y m : ℕ) : ℕ :=
  if m = 2 then (if isLeapYear y then 29 else 28)
  else if m = 4 ∨ m = 6 ∨ m = 9 ∨ m = 11 then 30 else 31

/-- Days in the given year strictly before month `m`. -/
def daysBeforeMonth (y m : ℕ) : ℕ :=
  ((List.range (m - 1)).map (fun i => daysInMonth y (i + 1))).sum

/-- Proleptic-Gregorian ordinal of a date, as in `datetime.toordinal`. -/
def toordinal (y m d : ℕ) : ℕ :=
  365 * (y - 1) + (y - 1) / 4 - (y - 1) / 100 + (y - 1) / 400 + daysBeforeMonth y m + d

/-- The result of CPython's `datetime.fromisoformat`: a naive datetime
with whole-microsecond precision. -/
structure PyDateTime where
  year : ℕ
  month : ℕ
  day : ℕ
  hour : ℕ
  minute : ℕ
  second : ℕ
  microsecond : ℕ
  deriving DecidableEq, Repr

/-- Range checks performed by the `datetime.time` constructor. -/
def mkTime (h m s micro : ℕ) : Option (ℕ × ℕ × ℕ × ℕ) :=
  if h < 24 ∧ m < 60 ∧ s < 60 then some (h, m, s, micro) else none

/-- The time component accepted by CPython 3.10's `fromisoformat`:
`HH`, `HH:MM`, `HH:MM:SS`, `HH:MM:SS.fff` or `HH:MM:SS.ffffff` — fixed
widths only (the fractional part must be exactly 3 or 6 digits, which is
why `main.py` needs `pad_isoformat`). -/
def parseTimeOfDay : Str → Option (ℕ × ℕ × ℕ × ℕ)
  | [h1, h2] =>
    if isDigitChar h1 && isDigitChar h2 then
      mkTime (twoDigits h1 h2) 0 0 0
    else none
  | [h1, h2, ':', m1, m2] =>
    if isDigitChar h1 && isDigitChar h2 && isDigitChar m1 && isDigitChar m2 then
      mkTime (twoDigits h1 h2) (twoDigits m1 m2) 0 0
    else none
  | [h1, h2, ':', m1, m2, ':', s1, s2] =>
    if isDigitChar h1 && isDigitChar h2 && isDigitChar m1 && isDigitChar m2 &&
       isDigitChar s1 && isDigitChar s2 then
      mkTime (twoDigits h1 h2) (twoDigits m1 m2) (twoDigits s1 s2) 0
    else none
  | [h1, h2, ':', m1, m2, ':', s1, s2, '.', f1, f2, f3] =>
    if isDigitChar h1 && isDigitChar h2 && isDigitChar m1 && isDigitChar m2 &&
       isDigitChar s1 && isDigitChar s2 &&
       isDigitChar f1 && isDigitChar f2 && isDigitChar f3 then
      mkTime (twoDigits h1 h2) (twoDigits m1 m2) (twoDigits s1 s2)
        (1000 * (100 * digitVal f1 + 10 * digitVal f2 + digitVal f3))
    else none
  | [h1, h2, ':', m1, m2, ':', s1, s2, '.', f1, f2, f3, f4, f5, f6] =>
    if isDigitChar h1 && isDigitChar h2 && isDigitChar m1 && isDigitChar m2 &&
       isDigitChar s1 && isDigitChar s2 &&
       isDigitChar f1 && isDigitChar f2 && isDigitChar f3 &&
       isDigitChar f4 && isDigitChar f5 && isDigitChar f6 then
      mkTime (twoDigits h1 h2) (twoDigits m1 m2) (twoDigits s1 s2)
        (100000 * digitVal f1 + 10000 * digitVal f2 + 1000 * digitVal f3 +
         100 * digitVal f4 + 10 * digitVal f5 + digitVal f6)
    else none
  | _ => none

/-- CPython 3.10's `datetime.fromisoformat`: a `YYYY-MM-DD` date (validated
by the `datetime` constructor), optionally followed by one separator
character and a fixed-width time component. -/
def fromisoformat (s : Str) : Option PyDateTime :=
  match s with
  | y1 :: y2 :: y3 :: y4 :: '-' :: m1 :: m2 :: '-' :: d1 :: d2 :: rest =>
    if isDigitChar y1 && isDigitChar y2 && isDigitChar y3 && isDigitChar y4 &&
       isDigitChar m1 && isDigitChar m2 && isDigitChar d1 && isDigitChar d2 then
      let y := 1000 * digitVal y1 + 100 * digitVal y2 + 10 * digitVal y3 + digitVal y4
      let mo := twoDigits m1 m2
      let dy := twoDigits d1 d2
      if 1 ≤ y ∧ 1 ≤ mo ∧ mo ≤ 12 ∧ 1 ≤ dy ∧ dy ≤ daysInMonth y mo then
        match rest with
        | [] => some ⟨y, mo, dy, 0, 0, 0, 0⟩
        | _ :: tstr =>
          match parseTimeOfDay tstr with
          | some (h, mi, se, mic) => some ⟨y, mo, dy, h, mi, se, mic⟩
          | none => none
      else none
    else none
  | _ => none

/-- A `PyDateTime` as the integer count of microseconds from the
proleptic-Gregorian origin; `datetime` subtraction is exact subtraction of
these counts. -/
def toMicros (dt : PyDateTime) : ℤ :=
  ((((toordinal dt.year dt.month dt.day * 24 + dt.hour) * 60 + dt.minute) * 60
      + dt.second) * 1000000 + dt.microsecond : ℕ)

/-- The `.seconds` field of a Python `timedelta` holding `t` microseconds:
after normalisation (`0 ≤ microseconds < 10^6`, `0 ≤ seconds < 86400`),
`seconds = (t mod 86400·10^6) div 10^6`.  Python's `%` on a positive
modulus is floor-mod, i.e. `Int.emod` here. -/
def tdSeconds (t : ℤ) : ℕ := (t % 86400000000).toNat / 1000000

/-- The per-entry duration computed at line 175 of `main.py`:
`(stop_time - start_time).seconds / 60`, a float retaining fractional
minutes. -/
def entryMinutes (a b : ℤ) : ℚ := (tdSeconds (b - a) : ℚ) / 60

/-- The instant the aggregator derives from one raw timestamp string
(lines 173–174 of `main.py`):
`datetime.fromisoformat(pad_isoformat(s[:-1]))`, as microseconds. -/
def parseTimestamp (s : Str) : Option ℤ :=
  (fromisoformat (pad_isoformat s.dropLast)).map toMicros

/-- One element of the `timeEntries` payload, as consumed by the
aggregation loop: `{"activityId": ..., "duration": {"startedAt": ...,
"stoppedAt": ...}}`. -/
structure RawEntry where
  activityId : Str
  startedAt : Str
  stoppedAt : Str
  deriving DecidableEq, Repr

/-- Failures of `create_visualization_of_daily_activities`: a `ValueError`
from timestamp parsing, or a `KeyError` when an `activityId` is missing
from the activity catalog (the `DataIntegrityError` of the spec). -/
inductive VizError where
  | parseFailure (s : Str)
  | keyError (id : Str)
  deriving DecidableEq, Repr

/-- A Python list comprehension (or loop) whose body may raise: the first
failure aborts with its error, otherwise the list of results is
produced. -/
def mapExcept {α β : Type} (f : α → Except VizError β) : List α → Except VizError (List β)
  | [] => .ok []
  | a :: l =>
    match f a with
    | .error e => .error e
    | .ok b =>
      match mapExcept f l with
      | .error e => .error e
      | .ok bs => .ok (b :: bs)

/-- One iteration's parsing work in the aggregation loop (lines 172–175 of
`main.py`); `startedAt` is parsed first, so its failure is reported
first. -/
def parseEntry (e : RawEntry) : Except VizError (Str × ℚ) :=
  match parseTimestamp e.startedAt, parseTimestamp e.stoppedAt with
  | some a, some b => .ok (e.activityId, entryMinutes a b)
  | none, _ => .error (.parseFailure e.startedAt)
  | _, none => .error (.parseFailure e.stoppedAt)

/-- One accumulation step of `accumulated_durations`: add to the existing
binding of the key, or append a fresh binding. The association list keeps
Python's dict insertion order; keys are unique by construction, so
updating the first binding is exact dict behaviour. -/
def updAcc : List (Str × ℚ) → Str × ℚ → List (Str × ℚ)
  | [], p => [p]
  | q :: rest, p =>
    if q.1 = p.1 then (q.1, q.2 + p.2) :: rest else q :: updAcc rest p

/-- The whole accumulation loop over the already-parsed
`(activityId, minutes)` pairs. -/
def aggregateLoop (pairs : List (Str × ℚ)) : List (Str × ℚ) :=
  pairs.foldl updAcc []

/-- The order of first occurrence of each element of a list. -/
def firstOccurrences (l : List Str) : List Str :=
  l.foldl (fun acc a => if a ∈ acc then acc else acc ++ [a]) []

/-- Python dict lookup on an insertion-ordered association list. -/
def lookupA {α : Type} : List (Str × α) → Str → Option α
  | [], _ => none
  | (k, v) :: rest, key => if k = key then some v else lookupA rest key

/-- The data handed to the plotting calls: parallel `labels`, `colors`,
`durations` sequences and the total minutes. -/
structure VizData where
  labels : List Str
  colors : List Str
  durations : List ℚ
  totalMinutes : ℚ
  deriving DecidableEq, Repr

/-- Catalog lookup for the `labels` comprehension (line 183): the name, or
a `KeyError` carrying the missing id. -/
def lookupName (catalog : List (Str × Str × Str)) (p : Str × ℚ) : Except VizError Str :=
  match lookupA catalog p.1 with
  | some nc => .ok nc.1
  | none => .error (.keyError p.1)

/-- Catalog lookup for the `colors` comprehension (line 184). -/
def lookupColor (catalog : List (Str × Str × Str)) (p : Str × ℚ) : Except VizError Str :=
  match lookupA catalog p.1 with
  | some nc => .ok nc.2
  | none => .error (.keyError p.1)

/-- The computational core of `create_visualization_of_daily_activities`
(lines 169–187 of `main.py`): parse and accumulate the entries, then
resolve labels and colors through the catalog and total the durations.
The returned `VizData` is exactly what the subsequent rendering calls
consume; an error aborts before any rendering. -/
def create_visualization_of_daily_activities
    (catalog : List (Str × Str × Str)) (entries : List RawEntry) :
    Except VizError VizData :=
  match mapExcept parseEntry entries with
  | .error e => .error e
  | .ok pairs =>
    match mapExcept (lookupName catalog) (aggregateLoop pairs) with
    | .error e => .error e
    | .ok labels =>
      match mapExcept (lookupColor catalog) (aggregateLoop pairs) with
      | .error e => .error e
      | .ok colors =>
        .ok ⟨labels, colors, (aggregateLoop pairs).map Prod.snd,
             ((aggregateLoop pairs).map Prod.snd).sum⟩

/-- Python `str.strip()` whitespace test (ASCII range). -/
def isPySpace (c : Char) : Bool :=
  c = ' ' || c = '\t' || c = '\n' || c = '\r' || c = Char.ofNat 11 || c = Char.ofNat 12

/-- Python `line.strip()`. -/
def stripChars (s : Str) : Str :=
  ((s.dropWhile isPySpace).reverse.dropWhile isPySpace).reverse

/-- The image-link line `"![[{date}-timeular.png]]\n"` computed at
line 250 of `main.py`. -/
def imageLink (date : Str) : Str :=
  "![[".toList ++ date ++ "-timeular.png]]\n".toList

/-- The heading the Note Updater searches for. -/
def timeularHeading : Str := "# Timeular".toList

/-- Terminal states of `insert_image_into_obsidian_note` on an opened
note: skip (link already present, no write), write of the new line
sequence, or the fatal `ValueError` when the heading is absent. -/
inductive NoteResult where
  | skipped
  | written (c : List Str)
  | headingNotFound
  deriving DecidableEq, Repr

/-- The scan of lines 272–275 of `main.py`: insert the link immediately
after the first line whose `strip()` equals `"# Timeular"`. -/
def insertAfterHeading (link : Str) : List Str → Option (List Str)
  | [] => none
  | l :: ls =>
    if stripChars l = timeularHeading then some (l :: link :: ls)
    else (insertAfterHeading link ls).map (fun c => l :: c)

/-- `insert_image_into_obsidian_note` (lines 250–281 of `main.py`) as a
function of the note's line sequence: skip when the exact link line is
already present, otherwise splice it after the first `"# Timeular"`
heading, otherwise fail with the heading-not-found error. -/
def insert_image_into_obsidian_note (date : Str) (content : List Str) : NoteResult :=
  let link := imageLink date
  if link ∈ content then .skipped
  else
    match insertAfterHeading link content with
    | some c => .written c
    | none => .headingNotFound

/-- The note file's line sequence after the updater runs: only the
`written` outcome changes the file. -/
def fileAfter (content : List Str) : NoteResult → List Str
  | .written c => c
  | _ => content

/-- Consume exactly four ASCII digits (the `%Y` pattern of CPython's
`strptime`, regex `\d\d\d\d`). -/
def parseYear4 : Str → Option (ℕ × Str)
  | c1 :: c2 :: c3 :: c4 :: rest =>
    if isDigitChar c1 && isDigitChar c2 && isDigitChar c3 && isDigitChar c4 then
      some (1000 * digitVal c1 + 100 * digitVal c2 + 10 * digitVal c3 + digitVal c4, rest)
    else none
  | _ => none

/-- The `%m` pattern of CPython's `strptime`, regex `1[0-2]|0[1-9]|[1-9]`,
including the effect of backtracking under the following literal `'-'`:
a committed two-digit match can never be rescued by the one-digit
alternative, because the rejected continuation character is a digit. -/
def parseMonthTok : Str → Option (ℕ × Str)
  | [] => none
  | c1 :: rest1 =>
    match c1, rest1 with
    | '1', c2 :: rest2 =>
      if '0' ≤ c2 ∧ c2 ≤ '2' then some (10 + digitVal c2, rest2) else some (1, rest1)
    | '1', [] => some (1, [])
    | '0', c2 :: rest2 =>
      if '1' ≤ c2 ∧ c2 ≤ '9' then some (digitVal c2, rest2) else none
    | c, _ => if '2' ≤ c ∧ c ≤ '9' then some (digitVal c, rest1) else none

/-- The `%d` pattern of CPython's `strptime`, regex
`3[01]|[12]\d|0[1-9]|[1-9]`, with the same backtracking analysis (the
pattern is at the end of the format, and a leftover digit after the
one-digit fallback still fails the full-match check). -/
def parseDayTok : Str → Option (ℕ × Str)
  | [] => none
  | c1 :: rest1 =>
    match c1, rest1 with
    | '3', c2 :: rest2 =>
      if '0' ≤ c2 ∧ c2 ≤ '1' then some (30 + digitVal c2, rest2) else some (3, rest1)
    | '3', [] => some (3, [])
    | '1', c2 :: rest2 =>
      if isDigitChar c2 then some (10 + digitVal c2, rest2) else some (1, rest1)
    | '1', [] => some (1, [])
    | '2', c2 :: rest2 =>
      if isDigitChar c2 then some (20 + digitVal c2, rest2) else some (2, rest1)
    | '2', [] => some (2, [])
    | '0', c2 :: rest2 =>
      if '1' ≤ c2 ∧ c2 ≤ '9' then some (digitVal c2, rest2) else none
    | c, _ => if '4' ≤ c ∧ c ≤ '9' then some (digitVal c, rest1) else none

/-- `datetime.strptime(s, "%Y-%m-%d")`: match year, `'-'`, month, `'-'`,
day against the whole string, then let the `datetime` constructor check
`1 ≤ year` and that the day exists in the month. -/
def strptimeYMD (s : Str) : Option (ℕ × ℕ × ℕ) :=
  match parseYear4 s with
  | none => none
  | some (y, rest1) =>
    match rest1 with
    | '-' :: rest2 =>
      match parseMonthTok rest2 with
      | none => none
      | some (m, rest3) =>
        match rest3 with
        | '-' :: rest4 =>
          match parseDayTok rest4 with
          | some (d, []) =>
            if 1 ≤ y ∧ 1 ≤ d ∧ d ≤ daysInMonth y m then some (y, m, d) else none
          | _ => none
        | _ => none
    | _ => none

/-- Digit character of a value below ten. -/
def digitChar (n : ℕ) : Char :=
  match n with
  | 0 => '0' | 1 => '1' | 2 => '2' | 3 => '3' | 4 => '4'
  | 5 => '5' | 6 => '6' | 7 => '7' | 8 => '8' | _ => '9'

/-- Two-digit zero-padded rendering (`%m`, `%d` of `strftime`). -/
def pad2 (n : ℕ) : Str := [digitChar (n / 10 % 10), digitChar (n % 10)]

/-- Four-digit zero-padded rendering (`%Y` of `strftime` for the years at
stake). -/
def pad4 (n : ℕ) : Str :=
  [digitChar (n / 1000 % 10), digitChar (n / 100 % 10), digitChar (n / 10 % 10),
   digitChar (n % 10)]

/-- `date.strftime("%Y-%m-%d")`. -/
def formatYMD (y m d : ℕ) : Str := pad4 y ++ '-' :: (pad2 m ++ '-' :: pad2 d)

/-- `valid_date` from `main.py`: `strptime` the argument with `%Y-%m-%d`
(raising on failure) and return the `strftime("%Y-%m-%d")` rendering of
the parsed date — the value the `schema` pipeline hands back. -/
def valid_date (s : Str) : Option Str :=
  (strptimeYMD s).map (fun t => formatYMD t.1 t.2.1 t.2.2)

/-- The spec's literal reading of "the exact format YYYY-MM-DD": ten
characters, four digits, a dash, two digits, a dash, two digits. Stated
from the spec's words, for comparison with `valid_date`. -/
def specExactDateFormat (s : Str) : Bool :=
  match s with
  | [y1, y2, y3, y4, h1, m1, m2, h2, d1, d2] =>
    isDigitChar y1 && isDigitChar y2 && isDigitChar y3 && isDigitChar y4 &&
    h1 = '-' && isDigitChar m1 && isDigitChar m2 &&
    h2 = '-' && isDigitChar d1 && isDigitChar d2
  | _ => false

/-- The per-entry minutes formula the spec states: the difference
`stoppedAt - startedAt` truncated to whole seconds, then divided by 60.
Stated from the spec's words, for comparison with `entryMinutes`. -/
def specTruncMinutes (a b : ℤ) : ℚ := (((b - a).tdiv 1000000 : ℤ) : ℚ) / 60

/-- The note file's line sequence after one invocation of the updater. -/
def runOnce (date : Str) (content : List Str) : List Str :=
  fileAfter content (insert_image_into_obsidian_note date content)

/-- Catalog fixture: activities `"a"` (Alpha, green) and `"b"` (Beta, red). -/
def catBA : List (Str × Str × Str) :=
  [("a".toList, "Alpha".toList, "#00ff00".toList),
   ("b".toList, "Beta".toList, "#ff0000".toList)]

/-- Entry fixture whose activity ids occur in the order `[B, A, B]`:
30 minutes of `"b"`, 15 minutes of `"a"`, 10 more minutes of `"b"`. -/
def entsBAB : List RawEntry :=
  [⟨"b".toList, "2023-01-01T09:00:00.000Z".toList, "2023-01-01T09:30:00.000Z".toList⟩,
   ⟨"a".toList, "2023-01-01T10:00:00.000Z".toList, "2023-01-01T10:15:00.000Z".toList⟩,
   ⟨"b".toList, "2023-01-01T11:00:00.000Z".toList, "2023-01-01T11:10:00.000Z".toList⟩]

/-- The `(activityId, minutes)` pairs the aggregation loop computes from
`entsBAB`. -/
def pairsBAB : List (Str × ℚ) :=
  [("b".toList, 30), ("a".toList, 15), ("b".toList, 10)]

/-- The visualization data of `catBA` and `entsBAB`: labels in first-seen
order `[Beta, Alpha]`. -/
def vizBAB : VizData :=
  ⟨["Beta".toList, "Alpha".toList], ["#ff0000".toList, "#00ff00".toList], [40, 15], 55⟩

/-! ### Helper lemmas about the aggregation loop -/

theorem updAcc_map_snd_sum (acc : List (Str × ℚ)) (p : Str × ℚ) :
    ((updAcc acc p).map Prod.snd).sum = (acc.map Prod.snd).sum + p.2 := by
  induction acc with
  | nil => simp [updAcc]
  | cons q rest ih =>
    by_cases h : q.1 = p.1
    · simp only [updAcc, if_pos h, List.map_cons, List.sum_cons]
      ring
    · simp only [updAcc, if_neg h, List.map_cons, List.sum_cons, ih]
      ring

theorem foldl_updAcc_map_snd_sum (pairs : List (Str × ℚ)) :
    ∀ acc : List (Str × ℚ),
      (((pairs.foldl updAcc acc).map Prod.snd).sum : ℚ) =
        (acc.map Prod.snd).sum + (pairs.map Prod.snd).sum := by
  induction pairs with
  | nil => intro acc; simp
  | cons p rest ih =>
    intro acc
    simp only [List.foldl_cons, List.map_cons, List.sum_cons, ih, updAcc_map_snd_sum]
    ring

theorem updAcc_map_fst (acc : List (Str × ℚ)) (p : Str × ℚ) :
    (updAcc acc p).map Prod.fst =
      if p.1 ∈ acc.map Prod.fst then acc.map Prod.fst else acc.map Prod.fst ++ [p.1] := by
  induction acc with
  | nil => simp [updAcc]
  | cons q rest ih =>
    by_cases h : q.1 = p.1
    · simp [updAcc, h]
    · have h2 : ¬ p.1 = q.1 := fun hh => h hh.symm
      simp [updAcc, h, ih, h2]
      by_cases hm : p.1 ∈ rest.map Prod.fst <;> simp [hm, h2]

theorem foldl_updAcc_map_fst (pairs : List (Str × ℚ)) :
    ∀ acc : List (Str × ℚ),
      (pairs.foldl updAcc acc).map Prod.fst =
        (pairs.map Prod.fst).foldl (fun ks a => if a ∈ ks then ks else ks ++ [a])
          (acc.map Prod.fst) := by
  induction pairs with
  | nil => intro acc; rfl
  | cons p rest ih =>
    intro acc
    simp only [List.foldl_cons, List.map_cons, ih, updAcc_map_fst]

theorem mem_foldl_firstOcc (l : List Str) :
    ∀ (ks : List Str) (a : Str), a ∈ ks ∨ a ∈ l →
      a ∈ l.foldl (fun ks a => if a ∈ ks then ks else ks ++ [a]) ks := by
  induction l with
  | nil => intro ks a h; simpa using h
  | cons b rest ih =>
    intro ks a h
    simp only [List.foldl_cons]
    rcases h with h | h
    · exact ih _ a (Or.inl (by by_cases hb : b ∈ ks <;> simp [hb, h]))
    · rcases List.mem_cons.mp h with rfl | h2
      · exact ih _ a (Or.inl (by by_cases hb : a ∈ ks <;> simp [hb]))
      · exact ih _ a (Or.inr h2)

theorem mapExcept_ok_fst {f : RawEntry → Except VizError (Str × ℚ)}
    (hf : ∀ e p, f e = .ok p → p.1 = e.activityId) :
    ∀ (entries : List RawEntry) (pairs : List (Str × ℚ)),
      mapExcept f entries = .ok pairs →
      pairs.map Prod.fst = entries.map RawEntry.activityId := by
  intro entries
  induction entries with
  | nil => intro pairs h; simp [mapExcept] at h; simp [← h]
  | cons e rest ih =>
    intro pairs h
    simp only [mapExcept] at h
    cases he : f e with
    | error err => rw [he] at h; cases h
    | ok p =>
      rw [he] at h
      cases hr : mapExcept f rest with
      | error err => rw [hr] at h; cases h
      | ok ps =>
        rw [hr] at h
        cases h
        simp [hf e p he, ih ps hr]

theorem parseEntry_fst (e : RawEntry) (p : Str × ℚ) (h : parseEntry e = .ok p) :
    p.1 = e.activityId := by
  unfold parseEntry at h
  split at h
  · cases h; rfl
  · cases h
  · cases h

theorem mapExcept_ok_mem {α β : Type} (f : α → Except VizError β) :
    ∀ (l : List α) (l2 : List β), mapExcept f l = .ok l2 →
      ∀ y ∈ l2, ∃ x ∈ l, f x = .ok y := by
  intro l
  induction l with
  | nil =>
    intro l2 h
    simp [mapExcept] at h
    subst h
    intro y hy
    cases hy
  | cons a rest ih =>
    intro l2 h
    simp only [mapExcept] at h
    cases ha : f a with
    | error err => rw [ha] at h; cases h
    | ok b =>
      rw [ha] at h
      cases hr : mapExcept f rest with
      | error err => rw [hr] at h; cases h
      | ok bs =>
        rw [hr] at h
        cases h
        intro y hy
        rcases List.mem_cons.mp hy with rfl | h2
        · exact ⟨a, List.mem_cons_self a rest, ha⟩
        · rcases ih bs hr y h2 with ⟨x, hx, hfx⟩
          exact ⟨x, List.mem_cons_of_mem a hx, hfx⟩

theorem mapExcept_lookupName_fail (catalog : List (Str × Str × Str)) :
    ∀ l : List (Str × ℚ), (∃ p ∈ l, lookupA catalog p.1 = none) →
      ∃ id, mapExcept (lookupName catalog) l = .error (.keyError id) ∧
        lookupA catalog id = none := by
  intro l
  induction l with
  | nil => rintro ⟨p, hp, _⟩; cases hp
  | cons q rest ih =>
    rintro ⟨p, hp, hnone⟩
    cases hq : lookupA catalog q.1 with
    | none =>
      exact ⟨q.1, by simp [mapExcept, lookupName, hq], hq⟩
    | some nc =>
      have hrest : ∃ p ∈ rest, lookupA catalog p.1 = none := by
        rcases List.mem_cons.mp hp with rfl | h2
        · rw [hq] at hnone; cases hnone
        · exact ⟨p, h2, hnone⟩
      rcases ih hrest with ⟨id, hmap, hid⟩
      exact ⟨id, by simp [mapExcept, lookupName, hq, hmap], hid⟩

/-! ### Helper lemmas about the note updater -/

theorem insertAfterHeading_mem (link : Str) :
    ∀ (content c : List Str), insertAfterHeading link content = some c → link ∈ c := by
  intro content
  induction content with
  | nil => intro c h; cases h
  | cons l ls ih =>
    intro c h
    unfold insertAfterHeading at h
    by_cases hs : stripChars l = timeularHeading
    · rw [if_pos hs] at h
      cases h
      simp
    · rw [if_neg hs] at h
      cases hrec : insertAfterHeading link ls with
      | none => rw [hrec] at h; cases h
      | some c2 =>
        rw [hrec] at h
        cases h
        exact List.mem_cons_of_mem l (ih c2 hrec)

theorem insertAfterHeading_none (link : Str) :
    ∀ content : List Str, (∀ l ∈ content, stripChars l ≠ timeularHeading) →
      insertAfterHeading link content = none := by
  intro content
  induction content with
  | nil => intro _; rfl
  | cons l ls ih =>
    intro h
    unfold insertAfterHeading
    rw [if_neg (h l (List.mem_cons_self l ls))]
    rw [ih (fun x hx => h x (List.mem_cons_of_mem l hx))]
    rfl

/-! ### Helper lemmas about duration bounds -/

theorem tdSeconds_lt (t : ℤ) : tdSeconds t < 86400 := by
  have h1 : t % 86400000000 < 86400000000 := Int.emod_lt_of_pos t (by norm_num)
  have h2 : 0 ≤ t % 86400000000 := Int.emod_nonneg t (by norm_num)
  unfold tdSeconds
  omega

theorem entryMinutes_nonneg (a b : ℤ) : 0 ≤ entryMinutes a b := by
  unfold entryMinutes
  positivity

theorem entryMinutes_lt (a b : ℤ) : entryMinutes a b < 1440 := by
  unfold entryMinutes
  rw [div_lt_iff₀ (by norm_num : (0:ℚ) < 60)]
  have h := tdSeconds_lt (b - a)
  calc (tdSeconds (b - a) : ℚ) < 86400 := by exact_mod_cast h
  _ = 1440 * 60 := by norm_num

theorem parseEntry_snd_nonneg (e : RawEntry) (p : Str × ℚ) (h : parseEntry e = .ok p) :
    0 ≤ p.2 := by
  unfold parseEntry at h
  split at h
  · cases h; exact entryMinutes_nonneg _ _
  · cases h
  · cases h

theorem updAcc_nonneg (acc : List (Str × ℚ)) (p : Str × ℚ)
    (hacc : ∀ q ∈ acc, 0 ≤ q.2) (hp : 0 ≤ p.2) :
    ∀ q ∈ updAcc acc p, 0 ≤ q.2 := by
  induction acc with
  | nil => intro q hq; simp [updAcc] at hq; simp [hq, hp]
  | cons r rest ih =>
    intro q hq
    unfold updAcc at hq
    by_cases h : r.1 = p.1
    · rw [if_pos h] at hq
      rcases List.mem_cons.mp hq with rfl | h2
      · have := hacc r (List.mem_cons_self r rest)
        simp only []
        positivity
      · exact hacc q (List.mem_cons_of_mem r h2)
    · rw [if_neg h] at hq
      rcases List.mem_cons.mp hq with rfl | h2
      · exact hacc q (List.mem_cons_self q rest)
      · exact ih (fun x hx => hacc x (List.mem_cons_of_mem r hx)) q h2

theorem foldl_updAcc_nonneg (pairs : List (Str × ℚ)) :
    ∀ acc : List (Str × ℚ), (∀ p ∈ pairs, 0 ≤ p.2) → (∀ q ∈ acc, 0 ≤ q.2) →
      ∀ q ∈ pairs.foldl updAcc acc, 0 ≤ q.2 := by
  induction pairs with
  | nil => intro acc _ hacc; exact hacc
  | cons p rest ih =>
    intro acc hpairs hacc
    simp only [List.foldl_cons]
    exact ih (updAcc acc p)
      (fun x hx => hpairs x (List.mem_cons_of_mem p hx))
      (updAcc_nonneg acc p hacc (hpairs p (List.mem_cons_self p rest)))

/-! ### Concrete evaluation of the fixture -/

theorem entryMinutes_30 : entryMinutes 63808246800000000 63808248600000000 = 30 := by
  have h : tdSeconds (63808248600000000 - 63808246800000000) = 1800 := by decide
  unfold entryMinutes
  rw [h]
  norm_num

theorem entryMinutes_15 : entryMinutes 63808250400000000 63808251300000000 = 15 := by
  have h : tdSeconds (63808251300000000 - 63808250400000000) = 900 := by decide
  unfold entryMinutes
  rw [h]
  norm_num

theorem entryMinutes_10 : entryMinutes 63808254000000000 63808254600000000 = 10 := by
  have h : tdSeconds (63808254600000000 - 63808254000000000) = 600 := by decide
  unfold entryMinutes
  rw [h]
  norm_num

theorem entsBAB_pairs : mapExcept parseEntry entsBAB = .ok pairsBAB := by
  have h1 : parseTimestamp "2023-01-01T09:00:00.000Z".toList = some 63808246800000000 := by
    decide
  have h2 : parseTimestamp "2023-01-01T09:30:00.000Z".toList = some 63808248600000000 := by
    decide
  have h3 : parseTimestamp "2023-01-01T10:00:00.000Z".toList = some 63808250400000000 := by
    decide
  have h4 : parseTimestamp "2023-01-01T10:15:00.000Z".toList = some 63808251300000000 := by
    decide
  have h5 : parseTimestamp "2023-01-01T11:00:00.000Z".toList = some 63808254000000000 := by
    decide
  have h6 : parseTimestamp "2023-01-01T11:10:00.000Z".toList = some 63808254600000000 := by
    decide
  simp at h1 h2 h3 h4 h5 h6
  simp [entsBAB, pairsBAB, mapExcept, parseEntry, h1, h2, h3, h4, h5, h6,
    entryMinutes_30, entryMinutes_15, entryMinutes_10]

theorem aggBAB : aggregateLoop pairsBAB = [("b".toList, 40), ("a".toList, 15)] := by
  norm_num [pairsBAB, aggregateLoop, updAcc]

theorem vizBAB_ok :
    create_visualization_of_daily_activities catBA entsBAB = .ok vizBAB := by
  unfold create_visualization_of_daily_activities
  simp only [entsBAB_pairs, aggBAB]
  norm_num [catBA, vizBAB, mapExcept, lookupName, lookupColor, lookupA]
  rfl

/-! ### Claim theorems -/

/-- Claim C2: for every list of time entries (whose parsing succeeds and
yields the per-entry `(activityId, minutes)` pairs), the per-activity
aggregated minutes handed to the renderer sum to the sum of the individual
entry durations, and `totalMinutes` equals that same sum — conservation of
total time under grouping. -/
theorem aggregation_conserves_sum (catalog : List (Str × Str × Str))
    (entries : List RawEntry) (pairs : List (Str × ℚ)) (viz : VizData)
    (hp : mapExcept parseEntry entries = .ok pairs)
    (hv : create_visualization_of_daily_activities catalog entries = .ok viz) :
    viz.durations.sum = (pairs.map Prod.snd).sum ∧
    viz.totalMinutes = (pairs.map Prod.snd).sum := by
  unfold create_visualization_of_daily_activities at hv
  simp only [hp] at hv
  cases hl : mapExcept (lookupName catalog) (aggregateLoop pairs) with
  | error e => simp only [hl] at hv; cases hv
  | ok labels =>
    simp only [hl] at hv
    cases hc : mapExcept (lookupColor catalog) (aggregateLoop pairs) with
    | error e => simp only [hc] at hv; cases hv
    | ok colors =>
      simp only [hc] at hv
      injection hv with h
      subst h
      have hsum : (((aggregateLoop pairs).map Prod.snd).sum : ℚ)
          = (pairs.map Prod.snd).sum := by
        simpa [aggregateLoop] using foldl_updAcc_map_snd_sum pairs []
      exact ⟨hsum, hsum⟩

/-- Witness for `aggregation_conserves_sum` at the `[B, A, B]` fixture:
40 + 15 aggregated equals 30 + 15 + 10 per-entry. -/
theorem aggregation_conserves_sum_witness :
    vizBAB.durations.sum = (pairsBAB.map Prod.snd).sum ∧
    vizBAB.totalMinutes = (pairsBAB.map Prod.snd).sum :=
  aggregation_conserves_sum catBA entsBAB pairsBAB vizBAB entsBAB_pairs vizBAB_ok

/-- Claim C3: the aggregator's output is ordered by first occurrence of
each `activityId` in the raw entry list — the aggregated key sequence is
exactly `firstOccurrences` of the entry-id sequence — and in particular
the `[B, A, B]` fixture yields the label order `[Beta, Alpha]` (with
colors and durations aligned to the same order). -/
theorem aggregation_first_seen_order :
    (∀ pairs : List (Str × ℚ),
      (aggregateLoop pairs).map Prod.fst = firstOccurrences (pairs.map Prod.fst)) ∧
    create_visualization_of_daily_activities catBA entsBAB = .ok vizBAB := by
  refine ⟨fun pairs => ?_, vizBAB_ok⟩
  unfold aggregateLoop firstOccurrences
  simpa using foldl_updAcc_map_fst pairs []

/-- Claim C10: every per-entry duration lies in `[0, 1440)` minutes (the
`timedelta.seconds` field is always in `[0, 86400)`, even when `stoppedAt`
precedes `startedAt`), so every aggregated per-activity duration and the
total are non-negative. -/
theorem entry_durations_bounded (a b : ℤ) (entries : List RawEntry)
    (pairs : List (Str × ℚ))
    (hp : mapExcept parseEntry entries = .ok pairs) :
    (0 ≤ entryMinutes a b ∧ entryMinutes a b < 1440) ∧
    (∀ q ∈ aggregateLoop pairs, 0 ≤ q.2) ∧
    0 ≤ ((aggregateLoop pairs).map Prod.snd).sum := by
  have hnn : ∀ p ∈ pairs, 0 ≤ p.2 := by
    intro p hmem
    rcases mapExcept_ok_mem parseEntry entries pairs hp p hmem with ⟨e, _, he⟩
    exact parseEntry_snd_nonneg e p he
  have hagg : ∀ q ∈ aggregateLoop pairs, 0 ≤ q.2 :=
    foldl_updAcc_nonneg pairs [] hnn (by intro q hq; cases hq)
  refine ⟨⟨entryMinutes_nonneg a b, entryMinutes_lt a b⟩, hagg, ?_⟩
  apply List.sum_nonneg
  intro x hx
  rcases List.mem_map.mp hx with ⟨q, hq, rfl⟩
  exact hagg q hq

/-- Witness for `entry_durations_bounded` at the fixture (including the
09:00–09:30 entry's instants). -/
theorem entry_durations_bounded_witness :
    (0 ≤ entryMinutes 63808246800000000 63808248600000000 ∧
      entryMinutes 63808246800000000 63808248600000000 < 1440) ∧
    (∀ q ∈ aggregateLoop pairsBAB, 0 ≤ q.2) ∧
    0 ≤ ((aggregateLoop pairsBAB).map Prod.snd).sum :=
  entry_durations_bounded 63808246800000000 63808248600000000 entsBAB pairsBAB
    entsBAB_pairs

/-- Claim C4: the Note Updater is idempotent — when the exact image-link
line already occurs anywhere in the note's line sequence it skips without
writing, and a second invocation on the file produced by a first
invocation leaves it unchanged. -/
theorem note_updater_idempotent (date : Str) (content : List Str) :
    (imageLink date ∈ content →
      insert_image_into_obsidian_note date content = .skipped) ∧
    runOnce date (runOnce date content) = runOnce date content := by
  constructor
  · intro h
    unfold insert_image_into_obsidian_note
    simp [h]
  · by_cases h : imageLink date ∈ content
    · have h1 : insert_image_into_obsidian_note date content = .skipped := by
        unfold insert_image_into_obsidian_note
        simp [h]
      have hro : runOnce date content = content := by
        unfold runOnce
        rw [h1]
        rfl
      rw [hro]
      exact hro
    · cases hi : insertAfterHeading (imageLink date) content with
      | none =>
        have h1 : insert_image_into_obsidian_note date content = .headingNotFound := by
          unfold insert_image_into_obsidian_note
          rw [if_neg h, hi]
        have hro : runOnce date content = content := by
          unfold runOnce
          rw [h1]
          rfl
        rw [hro]
        exact hro
      | some c =>
        have h1 : insert_image_into_obsidian_note date content = .written c := by
          unfold insert_image_into_obsidian_note
          rw [if_neg h, hi]
        have hro : runOnce date content = c := by
          unfold runOnce
          rw [h1]
          rfl
        have hmem : imageLink date ∈ c := insertAfterHeading_mem (imageLink date) content c hi
        have h2 : insert_image_into_obsidian_note date c = .skipped := by
          unfold insert_image_into_obsidian_note
          simp [hmem]
        rw [hro]
        unfold runOnce
        rw [h2]
        rfl

/-- Witness for `note_updater_idempotent`: a note already holding the link
line is skipped, and re-running leaves the file fixed. -/
theorem note_updater_idempotent_witness :
    insert_image_into_obsidian_note "2023-01-01".toList
        ["# Timeular\n".toList, "![[2023-01-01-timeular.png]]\n".toList] = .skipped ∧
    runOnce "2023-01-01".toList (runOnce "2023-01-01".toList
        ["# Timeular\n".toList, "![[2023-01-01-timeular.png]]\n".toList]) =
      runOnce "2023-01-01".toList
        ["# Timeular\n".toList, "![[2023-01-01-timeular.png]]\n".toList] :=
  ⟨(note_updater_idempotent "2023-01-01".toList
      ["# Timeular\n".toList, "![[2023-01-01-timeular.png]]\n".toList]).1 (by decide),
   (note_updater_idempotent "2023-01-01".toList
      ["# Timeular\n".toList, "![[2023-01-01-timeular.png]]\n".toList]).2⟩

/-- Claim C5: on a note containing neither the image-link line nor any
line trimming to `"# Timeular"`, the Note Updater fails with the fatal
heading-not-found error and the file's contents stay unmodified. -/
theorem note_updater_missing_heading (date : Str) (content : List Str)
    (h1 : imageLink date ∉ content)
    (h2 : ∀ l ∈ content, stripChars l ≠ timeularHeading) :
    insert_image_into_obsidian_note date content = .headingNotFound ∧
    fileAfter content (insert_image_into_obsidian_note date content) = content := by
  have hnone := insertAfterHeading_none (imageLink date) content h2
  have hr : insert_image_into_obsidian_note date content = .headingNotFound := by
    unfold insert_image_into_obsidian_note
    rw [if_neg h1, hnone]
  refine ⟨hr, ?_⟩
  rw [hr]
  rfl

/-- Witness for `note_updater_missing_heading` on a one-line note. -/
theorem note_updater_missing_heading_witness :
    insert_image_into_obsidian_note "2023-01-01".toList ["hello\n".toList] =
      .headingNotFound ∧
    fileAfter ["hello\n".toList]
        (insert_image_into_obsidian_note "2023-01-01".toList ["hello\n".toList]) =
      ["hello\n".toList] :=
  note_updater_missing_heading "2023-01-01".toList ["hello\n".toList]
    (by decide) (by decide)

/-- Claim C9: the aggregator unconditionally removes the final character
of each timestamp string before padding and parsing — whatever that
character is — so a trailing-marker timestamp is parsed from its
marker-free prefix, while `"2023-01-01T12:00:05"` (no marker) loses its
last digit and fails to parse at all. -/
theorem timestamp_last_char_dropped (t : Str) (c : Char) :
    parseTimestamp (t ++ [c]) = (fromisoformat (pad_isoformat t)).map toMicros ∧
    parseTimestamp "2023-01-01T12:00:05Z".toList = some 63808257605000000 ∧
    parseTimestamp "2023-01-01T12:00:05".toList = none := by
  refine ⟨?_, by decide, by decide⟩
  unfold parseTimestamp
  rw [List.dropLast_concat]

/-- Claim C1, counterexample: for the entry started `00:00:30` and stopped
`00:00:00` (stop before start), the aggregator computes 1439.5 minutes via
`timedelta.seconds`, while the claimed formula — the difference truncated
to whole seconds, divided by 60 — gives −0.5. -/
theorem duration_formula_counterexample :
    parseTimestamp "2023-01-01T00:00:30.000Z".toList = some 63808214430000000 ∧
    parseTimestamp "2023-01-01T00:00:00.000Z".toList = some 63808214400000000 ∧
    entryMinutes 63808214430000000 63808214400000000 = 2879 / 2 ∧
    specTruncMinutes 63808214430000000 63808214400000000 = -(1 / 2) ∧
    ((2879 : ℚ) / 2) ≠ -(1 / 2) := by
  refine ⟨by decide, by decide, ?_, ?_, by norm_num⟩
  · have h : tdSeconds (63808214400000000 - 63808214430000000) = 86370 := by decide
    unfold entryMinutes
    rw [h]
    norm_num
  · have h : (63808214400000000 - 63808214430000000 : ℤ).tdiv 1000000 = -30 := by
      decide
    unfold specTruncMinutes
    rw [h]
    norm_num

/-- Claim C1 (amended): for every time entry whose parsed difference
`stoppedAt − startedAt` is non-negative and below 24 hours, the aggregator
computes its elapsed minutes as that difference truncated to whole seconds
and divided by 60, with fractional minutes retained and no further
truncation on the minutes value. -/
theorem duration_trunc_window (a b : ℤ) (h0 : 0 ≤ b - a)
    (h1 : b - a < 86400000000) :
    entryMinutes a b = specTruncMinutes a b := by
  unfold entryMinutes specTruncMinutes tdSeconds
  rw [Int.emod_eq_of_lt h0 h1]
  obtain ⟨n, hn⟩ := Int.eq_ofNat_of_zero_le h0
  rw [hn]
  have e1 : ((n : ℤ)).toNat = n := Int.toNat_natCast n
  have e2 : ((n : ℤ)).tdiv 1000000 = ((n / 1000000 : ℕ) : ℤ) := rfl
  rw [e1, e2]
  simp only [Int.cast_natCast]

/-- Witness for `duration_trunc_window` on the 09:00–09:30 entry. -/
theorem duration_trunc_window_witness :
    entryMinutes 63808246800000000 63808248600000000 =
      specTruncMinutes 63808246800000000 63808248600000000 :=
  duration_trunc_window 63808246800000000 63808248600000000 (by decide) (by decide)

/-! ### Helper lemmas about splitting -/

theorem splitChar_not_mem (sep : Char) :
    ∀ s : Str, sep ∉ s → splitChar sep s = [s] := by
  intro s
  induction s with
  | nil => intro _; rfl
  | cons c cs ih =>
    intro h
    have hc : ¬ c = sep := fun he => h (he ▸ List.mem_cons_self c cs)
    have hcs : sep ∉ cs := fun hm => h (List.mem_cons_of_mem c hm)
    unfold splitChar
    rw [ih hcs]
    simp [hc]

theorem splitChar_append_sep (sep : Char) :
    ∀ pre frac : Str, sep ∉ pre → sep ∉ frac →
      splitChar sep (pre ++ sep :: frac) = [pre, frac] := by
  intro pre
  induction pre with
  | nil =>
    intro frac _ hf
    simp only [List.nil_append]
    unfold splitChar
    rw [splitChar_not_mem sep frac hf]
    simp
  | cons c cs ih =>
    intro frac hp hf
    have hc : ¬ c = sep := fun he => hp (he ▸ List.mem_cons_self c cs)
    have hcs : sep ∉ cs := fun hm => hp (List.mem_cons_of_mem c hm)
    simp only [List.cons_append]
    unfold splitChar
    rw [ih frac hcs hf]
    simp [hc]

/-- Claim C7, counterexample: `"…12:00:00"` and `"…12:00:00.5"` do not
parse to the same instant — the first has no fractional part and parses to
millisecond 000, the second pads to `.500`. -/
theorem padding_instant_counterexample :
    fromisoformat (pad_isoformat "2023-01-01T12:00:00".toList) =
      some ⟨2023, 1, 1, 12, 0, 0, 0⟩ ∧
    fromisoformat (pad_isoformat "2023-01-01T12:00:00.5".toList) =
      some ⟨2023, 1, 1, 12, 0, 0, 500000⟩ ∧
    (⟨2023, 1, 1, 12, 0, 0, 0⟩ : PyDateTime) ≠ ⟨2023, 1, 1, 12, 0, 0, 500000⟩ :=
  ⟨by decide, by decide, by decide⟩

/-- Claim C7 (amended): padding is total and normalizing — a timestamp
with no `'.'` passes through unchanged; one whose fractional part has 1–3
digits is padded to exactly 3 digits; and the three fractional variants
`.5`, `.50`, `.500` all parse to the same instant (which differs, at
millisecond precision, from the fraction-free timestamp). -/
theorem pad_isoformat_normalizes (s pre frac : Str)
    (hs : '.' ∉ s) (hp : '.' ∉ pre) (hf : '.' ∉ frac)
    (hlen1 : 1 ≤ frac.length) (hlen3 : frac.length ≤ 3) :
    pad_isoformat s = s ∧
    pad_isoformat (pre ++ '.' :: frac) =
      pre ++ '.' :: (frac ++ List.replicate (3 - frac.length) '0') ∧
    (frac ++ List.replicate (3 - frac.length) '0').length = 3 ∧
    fromisoformat (pad_isoformat "2023-01-01T12:00:00.5".toList) =
      some ⟨2023, 1, 1, 12, 0, 0, 500000⟩ ∧
    fromisoformat (pad_isoformat "2023-01-01T12:00:00.50".toList) =
      some ⟨2023, 1, 1, 12, 0, 0, 500000⟩ ∧
    fromisoformat (pad_isoformat "2023-01-01T12:00:00.500".toList) =
      some ⟨2023, 1, 1, 12, 0, 0, 500000⟩ := by
  refine ⟨?_, ?_, ?_, by decide, by decide, by decide⟩
  · unfold pad_isoformat
    rw [splitChar_not_mem '.' s hs]
  · unfold pad_isoformat
    rw [splitChar_append_sep '.' pre frac hp hf]
  · simp only [List.length_append, List.length_replicate]
    omega

/-- Witness for `pad_isoformat_normalizes` at prefix
`"2023-01-01T12:00:00"` and fraction `"5"`. -/
theorem pad_isoformat_normalizes_witness :
    pad_isoformat "2023-01-01T12:00:00".toList = "2023-01-01T12:00:00".toList ∧
    pad_isoformat ("2023-01-01T12:00:00".toList ++ '.' :: "5".toList) =
      "2023-01-01T12:00:00".toList ++
        '.' :: ("5".toList ++ List.replicate (3 - "5".toList.length) '0') ∧
    ("5".toList ++ List.replicate (3 - "5".toList.length) '0').length = 3 ∧
    fromisoformat (pad_isoformat "2023-01-01T12:00:00.5".toList) =
      some ⟨2023, 1, 1, 12, 0, 0, 500000⟩ ∧
    fromisoformat (pad_isoformat "2023-01-01T12:00:00.50".toList) =
      some ⟨2023, 1, 1, 12, 0, 0, 500000⟩ ∧
    fromisoformat (pad_isoformat "2023-01-01T12:00:00.500".toList) =
      some ⟨2023, 1, 1, 12, 0, 0, 500000⟩ :=
  pad_isoformat_normalizes "2023-01-01T12:00:00".toList "2023-01-01T12:00:00".toList
    "5".toList (by decide) (by decide) (by decide) (by decide) (by decide)

/-! ### Helper lemmas about the date round trip -/

theorem isDigitChar_digitChar (k : ℕ) : isDigitChar (digitChar k) = true := by
  unfold digitChar
  split <;> rfl

theorem digitVal_digitChar (k : ℕ) (h : k < 10) : digitVal (digitChar k) = k := by
  interval_cases k <;> rfl

theorem parseYear4_pad4 (y : ℕ) (rest : Str) (h : y ≤ 9999) :
    parseYear4 (pad4 y ++ rest) = some (y, rest) := by
  show parseYear4 (digitChar (y / 1000 % 10) :: digitChar (y / 100 % 10) ::
      digitChar (y / 10 % 10) :: digitChar (y % 10) :: rest) = some (y, rest)
  have d1 := digitVal_digitChar (y / 1000 % 10) (Nat.mod_lt _ (by norm_num))
  have d2 := digitVal_digitChar (y / 100 % 10) (Nat.mod_lt _ (by norm_num))
  have d3 := digitVal_digitChar (y / 10 % 10) (Nat.mod_lt _ (by norm_num))
  have d4 := digitVal_digitChar (y % 10) (Nat.mod_lt _ (by norm_num))
  have hy : 1000 * (y / 1000 % 10) + 100 * (y / 100 % 10) + 10 * (y / 10 % 10) + y % 10
      = y := by omega
  simp [parseYear4, isDigitChar_digitChar, d1, d2, d3, d4, hy]

theorem parseMonthTok_pad2 (m : ℕ) (rest : Str) (h1 : 1 ≤ m) (h2 : m ≤ 12) :
    parseMonthTok (pad2 m ++ rest) = some (m, rest) := by
  interval_cases m <;> rfl

theorem parseDayTok_pad2 (d : ℕ) (rest : Str) (h1 : 1 ≤ d) (h2 : d ≤ 31) :
    parseDayTok (pad2 d ++ rest) = some (d, rest) := by
  interval_cases d <;> rfl

theorem parseDayTok_pad2_nil (d : ℕ) (h1 : 1 ≤ d) (h2 : d ≤ 31) :
    parseDayTok (pad2 d) = some (d, []) := by
  have := parseDayTok_pad2 d [] h1 h2
  simpa using this

theorem daysInMonth_le_31 (y m : ℕ) : daysInMonth y m ≤ 31 := by
  unfold daysInMonth
  split
  · split <;> norm_num
  · split <;> norm_num

theorem strptimeYMD_format (y m d : ℕ) (hy1 : 1 ≤ y) (hy2 : y ≤ 9999)
    (hm1 : 1 ≤ m) (hm2 : m ≤ 12) (hd1 : 1 ≤ d) (hd2 : d ≤ daysInMonth y m) :
    strptimeYMD (formatYMD y m d) = some (y, m, d) := by
  have hd31 : d ≤ 31 := le_trans hd2 (daysInMonth_le_31 y m)
  unfold strptimeYMD formatYMD
  rw [parseYear4_pad4 y ('-' :: (pad2 m ++ '-' :: pad2 d)) hy2]
  simp only
  rw [parseMonthTok_pad2 m ('-' :: pad2 d) hm1 hm2]
  simp only
  rw [parseDayTok_pad2_nil d hd1 hd31]
  simp [hy1, hd1, hd2]

/-- Claim C8, counterexample: `"2023-1-1"` is not in the exact
`YYYY-MM-DD` format yet is accepted (and silently normalized to
`"2023-01-01"`), while `"2023-02-30"` is in the exact format yet raises
(no such calendar day). -/
theorem date_validation_counterexample :
    valid_date "2023-1-1".toList = some ("2023-01-01".toList) ∧
    specExactDateFormat "2023-1-1".toList = false ∧
    valid_date "2023-02-30".toList = none ∧
    specExactDateFormat "2023-02-30".toList = true :=
  ⟨by decide, by decide, by decide, by decide⟩

/-- Claim C8 (amended): the date argument is validated against
`strptime("%Y-%m-%d")`, not the exact textual format — a 4-digit year with
1–2 digit month and day denoting a real calendar date is accepted and
returned in zero-padded normalized form. In particular every zero-padded
rendering of a valid date is returned unchanged, `"2023-1-1"` is accepted
as `"2023-01-01"`, and strings `strptime` cannot parse (`"bogus"`,
`"2023-02-30"`, `"0000-01-01"`) are fatal errors (raised before any
network call, since argument parsing precedes the sign-in request). -/
theorem valid_date_strptime (y m d : ℕ) (hy1 : 1 ≤ y) (hy2 : y ≤ 9999)
    (hm1 : 1 ≤ m) (hm2 : m ≤ 12) (hd1 : 1 ≤ d) (hd2 : d ≤ daysInMonth y m) :
    valid_date (formatYMD y m d) = some (formatYMD y m d) ∧
    valid_date "2023-1-1".toList = some ("2023-01-01".toList) ∧
    valid_date "bogus".toList = none ∧
    valid_date "2023-02-30".toList = none ∧
    valid_date "0000-01-01".toList = none := by
  refine ⟨?_, by decide, by decide, by decide, by decide⟩
  unfold valid_date
  rw [strptimeYMD_format y m d hy1 hy2 hm1 hm2 hd1 hd2]
  rfl

/-- Witness for `valid_date_strptime` at 2023-12-31. -/
theorem valid_date_strptime_witness :
    valid_date (formatYMD 2023 12 31) = some (formatYMD 2023 12 31) ∧
    valid_date "2023-1-1".toList = some ("2023-01-01".toList) ∧
    valid_date "bogus".toList = none ∧
    valid_date "2023-02-30".toList = none ∧
    valid_date "0000-01-01".toList = none :=
  valid_date_strptime 2023 12 31 (by decide) (by decide) (by decide) (by decide)
    (by decide) (by decide)

/-- Claim C6: whenever some entry's `activityId` has no catalog binding,
the visualization stage fails with the fatal `KeyError` of a missing id
(the spec's `DataIntegrityError`) before producing any render input — no
unknown-activity entry is silently skipped. -/
theorem unknown_activity_aborts (catalog : List (Str × Str × Str))
    (entries : List RawEntry) (pairs : List (Str × ℚ)) (e : RawEntry)
    (hp : mapExcept parseEntry entries = .ok pairs)
    (he : e ∈ entries)
    (hmiss : lookupA catalog e.activityId = none) :
    ∃ id, create_visualization_of_daily_activities catalog entries =
        .error (.keyError id) ∧ lookupA catalog id = none := by
  have hfst : pairs.map Prod.fst = entries.map RawEntry.activityId :=
    mapExcept_ok_fst parseEntry_fst entries pairs hp
  have h1 : e.activityId ∈ pairs.map Prod.fst := by
    rw [hfst]
    exact List.mem_map.mpr ⟨e, he, rfl⟩
  have hkeys : (aggregateLoop pairs).map Prod.fst =
      (pairs.map Prod.fst).foldl (fun ks a => if a ∈ ks then ks else ks ++ [a]) [] := by
    simpa using foldl_updAcc_map_fst pairs []
  have hmem : e.activityId ∈ (aggregateLoop pairs).map Prod.fst := by
    rw [hkeys]
    exact mem_foldl_firstOcc (pairs.map Prod.fst) [] e.activityId (Or.inr h1)
  rcases List.mem_map.mp hmem with ⟨q, hq, hqid⟩
  have hqnone : lookupA catalog q.1 = none := by
    rw [hqid]
    exact hmiss
  rcases mapExcept_lookupName_fail catalog (aggregateLoop pairs) ⟨q, hq, hqnone⟩
    with ⟨id, hmapE, hid⟩
  refine ⟨id, ?_, hid⟩
  unfold create_visualization_of_daily_activities
  simp only [hp, hmapE]

/-- Witness for `unknown_activity_aborts`: against an empty catalog, the
fixture run aborts with a `KeyError`. -/
theorem unknown_activity_aborts_witness :
    ∃ id, create_visualization_of_daily_activities [] entsBAB =
        .error (.keyError id) ∧ lookupA ([] : List (Str × Str × Str)) id = none :=
  unknown_activity_aborts [] entsBAB pairsBAB
    ⟨"b".toList, "2023-01-01T09:00:00.000Z".toList, "2023-01-01T09:30:00.000Z".toList⟩
    entsBAB_pairs (by decide) rfl

end Kronos
